import Mathlib

/-!
# use-select: selective store subscription hooks

A shallow embedding of `src/named-exports/redux.js` (`useStore`,
`defaultShouldUpdate`, `useSelect`, `useReduxState`).

JavaScript values are first-order data (`JSVal`); functions handed to the
hooks are Lean functions (`Arg.fn`).  Every hook is a state-passing function
over a `World` holding the Redux store, the `useSyncState` cell of the
component and a chronological log of the calls made to the store, to the
selector, to the comparator and to `syncState.set`.  A thrown exception is an
`Except.error`.

The world follows one component: the store's list of listeners holds the
`setState` closures of that component and, as `Listener.other`, the listeners
of everybody else.  The packages the source imports (object-path,
shallow-equals, `useSyncState`, the Redux store) are not part of the
repository; `shallowEquals` is a parameter of the hooks and the others are
modelled from the specification.
-/

namespace UseSelect

/-! ## JavaScript values -/

mutual
/-- First-order JavaScript data. -/
inductive JSVal where
  | undefined
  | null
  | bool (b : Bool)
  | num (n : Int)
  | str (s : String)
  | arr (items : JSList)
  | obj (fields : JSFields)
/-- Elements of an array. -/
inductive JSList where
  | nil
  | cons (v : JSVal) (tl : JSList)
/-- Own properties of an object, in insertion order. -/
inductive JSFields where
  | nil
  | cons (k : String) (v : JSVal) (tl : JSFields)
end

deriving instance DecidableEq for JSVal, JSList, JSFields

/-- Number of elements of an array. -/
def JSList.length : JSList → Nat
  | .nil => 0
  | .cons _ tl => tl.length + 1

/-- Element `xs[i]`, `undefined` out of range. -/
def JSList.index : JSList → Nat → JSVal
  | .nil, _ => .undefined
  | .cons v _, 0 => v
  | .cons _ tl, i + 1 => tl.index i

/-- Own property `o[key]`, `undefined` when the key is absent. -/
def JSFields.lookup : JSFields → String → JSVal
  | .nil, _ => .undefined
  | .cons k v tl, key => if k = key then v else tl.lookup key

/-- The empty object literal. -/
def emptyObject : JSVal := .obj .nil

/-- The `typeof` operator on data. -/
def JSVal.typeof : JSVal → String
  | .undefined => "undefined"
  | .null => "object"
  | .bool _ => "boolean"
  | .num _ => "number"
  | .str _ => "string"
  | .arr _ => "object"
  | .obj _ => "object"

/-- JavaScript truthiness, as tested by `if (...)`. -/
def truthy : JSVal → Bool
  | .undefined => false
  | .null => false
  | .bool b => b
  | .num n => n != 0
  | .str s => s != ""
  | .arr _ => true
  | .obj _ => true

/-- Property read `v.key` used by object destructuring. -/
def getProp : JSVal → String → JSVal
  | .obj fs, key => fs.lookup key
  | _, _ => .undefined

/-- A JavaScript argument: a data value or a function of one argument. -/
inductive Arg where
  | val (v : JSVal)
  | fn (f : JSVal → JSVal)

/-- The `typeof` operator on arguments. -/
def Arg.typeof : Arg → String
  | .val v => v.typeof
  | .fn _ => "function"

/-! ## object-path `get` -/

/-- A path handed to `op.get`: a dotted string or an array of keys. -/
inductive Path where
  | str (s : String)
  | keys (ks : List String)
  deriving DecidableEq

/-- Splitting at every dot, as `path.split('.')` does. -/
def splitDotAux : List Char → List Char → List String
  | [], cur => [String.mk cur.reverse]
  | c :: cs, cur =>
    if c = '.' then String.mk cur.reverse :: splitDotAux cs []
    else splitDotAux cs (c :: cur)

/-- The segments of a dotted path. -/
def splitDot (s : String) : List String := splitDotAux s.toList []

/-- Value of a string of decimal digits. -/
def digitsValue : List Char → Nat → Nat
  | [], acc => acc
  | c :: cs, acc => digitsValue cs (acc * 10 + (c.toNat - 48))

/-- The array index a key denotes: `getKey` turns a key into a number exactly
when `parseInt(key).toString() === key`; negative numbers index nothing. -/
def canonicalIndex (key : String) : Option Nat :=
  let cs := key.toList
  if cs ≠ [] ∧ cs.all Char.isDigit ∧ (cs.head? ≠ some '0' ∨ cs.length = 1)
  then some (digitsValue cs 0) else none

/-- Modelled from the spec: `getShallowProperty` of the external object-path
package, the own property `obj[key]` of an object, array or string and
`undefined` when there is none. -/
def getShallowProperty : JSVal → String → JSVal
  | .obj fs, key => fs.lookup key
  | .arr xs, key =>
    match canonicalIndex key with
    | some i => xs.index i
    | none => if key = "length" then .num xs.length else .undefined
  | .str s, key =>
    match canonicalIndex key with
    | some i =>
      match s.toList.get? i with
      | some c => .str (String.mk [c])
      | none => .undefined
    | none => if key = "length" then .num s.toList.length else .undefined
  | _, _ => .undefined

/-- Whether `obj == null`. -/
def isNullish : JSVal → Bool
  | .undefined => true
  | .null => true
  | _ => false

/-- Modelled from the spec: the recursion of `op.get` over a non-empty array
of keys (nested path lookup with a default fallback). -/
def opGetKeys : JSVal → List String → JSVal → JSVal
  | o, [], _ => o
  | o, [k], d =>
    if isNullish o then d
    else if getShallowProperty o k = .undefined then d
    else getShallowProperty o k
  | o, k :: k2 :: ks, d =>
    if isNullish o then d
    else if getShallowProperty o k = .undefined then d
    else opGetKeys (getShallowProperty o k) (k2 :: ks) d

/-- Modelled from the spec: `op.get(obj, path, defaultValue)` of the external
object-path package.  An empty path gives `obj` itself; otherwise the value
found along the path, and `defaultValue` when nothing is found there. -/
def opGet (o : JSVal) (path : Path) (d : JSVal) : JSVal :=
  match path with
  | .str s => if s = "" then o else if isNullish o then d else opGetKeys o (splitDot s) d
  | .keys ks => opGetKeys o ks d

/-- The value found along a list of keys, `none` when nothing is found: the
walk stops at `null`, at `undefined` and at a key that is absent. -/
def findKeys : JSVal → List String → Option JSVal
  | o, [] => some o
  | o, k :: ks =>
    if isNullish o then none
    else if getShallowProperty o k = .undefined then none
    else findKeys (getShallowProperty o k) ks

/-- The value found at a path within a value, `none` when the path is absent;
the empty path is the value itself. -/
def pathFind (o : JSVal) (path : Path) : Option JSVal :=
  match path with
  | .str s => if s = "" then some o else findKeys o (splitDot s)
  | .keys ks => findKeys o ks

/-! ## shallow-equals -/

/-- Number of own properties. -/
def JSFields.size : JSFields → Nat
  | .nil => 0
  | .cons _ _ tl => tl.size + 1

/-- Whether every own property of the first object has the identical value
in the second. -/
def JSFields.agree : JSFields → JSFields → Bool
  | .nil, _ => true
  | .cons k v tl, gs => decide (v = gs.lookup k) && tl.agree gs

/-- Modelled from the spec: the external shallow-equals package on data whose
nested objects are shared, the same primitive value, or the same top-level
keys (elements) with identical values.  The hooks take the comparison as a
parameter; this instance serves concrete runs. -/
def shallowEquals : JSVal → JSVal → Bool
  | .arr xs, .arr ys => decide (xs = ys)
  | .obj fs, .obj gs => fs.agree gs && fs.size == gs.size
  | .null, .null => true
  | .undefined, .undefined => true
  | .bool a, .bool b => a == b
  | .num a, .num b => a == b
  | .str a, .str b => a == b
  | _, _ => false

/-! ## The store and the world -/

/-- What `useStore` hands out: the provider's store or the neutral stand-in
whose `getState` returns an empty object and whose `subscribe` and
`dispatch` are `noop`. -/
inductive StoreHandle where
  | real
  | noop
  deriving DecidableEq

/-- The variables captured by the `setState` closure of `useSelect`. -/
structure Closure where
  store : StoreHandle
  select : JSVal → JSVal
  shouldUpdate : Arg

/-- A function subscribed to the store: the `setState` of a `useSelect`, or a
listener of some other subscriber. -/
inductive Listener where
  | setState (c : Closure)
  | other (n : Nat)

/-- Modelled from the spec: the external Redux store, `getState`, `dispatch`
and `subscribe(listener)` returning an unsubscribe function.  Every
subscription gets a fresh token; its unsubscribe function removes the entry
carrying that token. -/
structure Store where
  state : JSVal
  reducer : JSVal → JSVal → JSVal
  listeners : List (Nat × Listener)
  nextToken : Nat

/-- A call recorded in the log. -/
inductive Event where
  | getState
  | select (state : JSVal)
  | shouldUpdate (arg : JSVal)
  | syncSet (v : JSVal)
  | subscribe
  | dispatch (action : JSVal)
  deriving DecidableEq

/-- The store, the `useSyncState` cell of the component (`none` before the
first render) and the log of calls, oldest first. -/
structure World where
  store : Store
  cell : Option JSVal
  log : List Event

/-- Appending a call to the log. -/
def World.record (w : World) (e : Event) : World :=
  { w with log := w.log ++ [e] }

/-- Value of a property of the React-Redux context object. -/
inductive CtxProp where
  | store
  | undefined
  deriving DecidableEq

/-- Value of `useContext(ReactReduxContext)`: `none` outside a provider, else
the own properties of the context object. -/
abbrev Ctx := Option (List (String × CtxProp))

/-- `useStore`: `op.get(useContext(ReactReduxContext), 'store', standIn)`. -/
def useStore (ctx : Ctx) : StoreHandle :=
  match ctx with
  | none => .noop
  | some fs =>
    match fs.lookup "store" with
    | some .store => .real
    | _ => .noop

/-- The state `store.getState()` returns. -/
def StoreHandle.current (h : StoreHandle) (w : World) : JSVal :=
  match h with
  | .real => w.store.state
  | .noop => emptyObject

/-- `store.getState()`. -/
def StoreHandle.getState (h : StoreHandle) (w : World) : JSVal × World :=
  match h with
  | .real => (w.store.state, w.record .getState)
  | .noop => (emptyObject, w.record .getState)

/-- `store.subscribe(listener)`: the token of the unsubscribe function that
is returned, `none` for the `undefined` the stand-in returns. -/
def StoreHandle.subscribe (h : StoreHandle) (l : Listener) (w : World) :
    Option Nat × World :=
  match h with
  | .real =>
    (some w.store.nextToken,
      { w with
        store := { w.store with
          listeners := w.store.listeners ++ [(w.store.nextToken, l)]
          nextToken := w.store.nextToken + 1 }
        log := w.log ++ [.subscribe] })
  | .noop => (none, w.record .subscribe)

/-- The unsubscribe function of the subscription with token `t`. -/
def unsubscribe (t : Nat) (w : World) : World :=
  { w with store := { w.store with
      listeners := w.store.listeners.filter (fun p => p.1 != t) } }

/-! ## useSyncState -/

/-- Modelled from the spec: `useSyncState(initial)` of the external
reactium-sdk-core package, which creates the cell on the first render and
keeps it on later ones. -/
def useSyncState (initial : JSVal) (w : World) : World :=
  match w.cell with
  | none => { w with cell := some initial }
  | some _ => w

/-- Modelled from the spec: `syncState.get()`, the recorded value. -/
def syncGet (w : World) : JSVal := w.cell.getD .undefined

/-- Modelled from the spec: `syncState.get(key, defaultValue)`, nested path
lookup in the recorded value with a default fallback. -/
def syncGetPath (w : World) (key : Path) (d : JSVal) : JSVal :=
  opGet (syncGet w) key d

/-- Modelled from the spec: `syncState.set(value)` replaces the recorded
value. -/
def syncSet (v : JSVal) (w : World) : World :=
  { w with cell := some v, log := w.log ++ [.syncSet v] }

/-! ## defaultShouldUpdate and the listener -/

/-- `defaultShouldUpdate`: `!shallowEquals(prevState, newState)` on the
destructured argument.  `shallowEquals` is the external shallow-equals
package. -/
def defaultShouldUpdate (shallowEquals : JSVal → JSVal → Bool) (arg : JSVal) : JSVal :=
  .bool (!shallowEquals (getProp arg "prevState") (getProp arg "newState"))

/-- The object literal handed to the comparator, `newState` first. -/
def comparatorArg (newState prevState : JSVal) : JSVal :=
  .obj (.cons "newState" newState (.cons "prevState" prevState .nil))

/-- The closure `setState` of `useSelect`: recompute the selection, ask the
comparator, and write the cell only when it answers truthy. -/
def setState (c : Closure) (w : World) : Except String Unit × World :=
  let (s, w1) := c.store.getState w
  let newState := c.select s
  let w2 := w1.record (.select s)
  let prevState := syncGet w2
  match c.shouldUpdate with
  | .val _ => (.error "TypeError: shouldUpdate is not a function", w2)
  | .fn f =>
    let w3 := w2.record (.shouldUpdate (comparatorArg newState prevState))
    if truthy (f (comparatorArg newState prevState)) then (.ok (), syncSet newState w3)
    else (.ok (), w3)

/-- The store calling its listeners in subscription order; an exception of a
listener ends the round. -/
def notify : List (Nat × Listener) → World → Except String Unit × World
  | [], w => (.ok (), w)
  | (_, .other _) :: ls, w => notify ls w
  | (_, .setState c) :: ls, w =>
    match setState c w with
    | (.ok _, w1) => notify ls w1
    | (.error e, w1) => (.error e, w1)

/-- The store moving to the state `s` and notifying its listeners once. -/
def storeTransition (s : JSVal) (w : World) : Except String Unit × World :=
  let w1 := { w with store := { w.store with state := s } }
  notify w1.store.listeners w1

/-- `store.dispatch(action)`: the real store reduces and notifies, the
stand-in does nothing. -/
def StoreHandle.dispatch (h : StoreHandle) (action : JSVal) (w : World) :
    Except String Unit × World :=
  match h with
  | .real => storeTransition (w.store.reducer w.store.state action) (w.record (.dispatch action))
  | .noop => (.ok (), w.record (.dispatch action))

/-! ## useSelect -/

/-- The three properties `useSelect` reads from a params object; `none` is an
absent property. -/
structure ParamsObj where
  select : Option Arg
  shouldUpdate : Option Arg
  returnMode : Option Arg

/-- The argument of `useSelect`: a function, an object, or a value carrying
none of the three properties. -/
inductive Params where
  | fn (f : JSVal → JSVal)
  | obj (o : ParamsObj)
  | other (v : JSVal)

/-- A property read with a default, `op.get(params, key, dflt)`: an absent or
`undefined` property gives the default. -/
def propOr (p : Option Arg) (dflt : Arg) : Arg :=
  match p with
  | none => dflt
  | some (.val .undefined) => dflt
  | some a => a

/-- What `useSelect` returns, by `returnMode`. -/
inductive Ret where
  | value (v : JSVal)
  | ref (current : JSVal)
  | get
  | syncState
  deriving DecidableEq

/-- Result of a render: the returned value and the `setState` closure handed
to `useEffect`. -/
structure Rendered where
  ret : Ret
  effect : Closure

/-- The `switch (returnMode)` of `useSelect`.  The `console.log` of the
deprecated `'ref'` mode is left out, and so is the local `getter`, which no
branch returns: `'get'` returns `syncState.get`. -/
def returnSwitch (returnMode : Arg) (w : World) : Ret :=
  match returnMode with
  | .val (.str "ref") => .ref (syncGet w)
  | .val (.str "get") => .get
  | .val (.str "syncState") => .syncState
  | _ => .value (syncGet w)

/-- One render of `useSelect(params)`. -/
def useSelect (shallowEquals : JSVal → JSVal → Bool) (ctx : Ctx) (params : Params)
    (w : World) : Except String Rendered × World :=
  let select : Arg :=
    match params with
    | .fn f => .fn f
    | .obj o => propOr o.select (.fn fun newState => newState)
    | .other _ => .fn fun newState => newState
  let shouldUpdate : Arg :=
    match params with
    | .fn _ => .fn (defaultShouldUpdate shallowEquals)
    | .obj o => propOr o.shouldUpdate (.fn (defaultShouldUpdate shallowEquals))
    | .other _ => .fn (defaultShouldUpdate shallowEquals)
  let returnMode : Arg :=
    match params with
    | .fn _ => .val (.str "state")
    | .obj o => propOr o.returnMode (.val (.str "state"))
    | .other _ => .val (.str "state")
  let store := useStore ctx
  let (s, w1) := store.getState w
  match select with
  | .val _ => (.error "TypeError: select is not a function", w1)
  | .fn f =>
    let w2 := useSyncState (f s) (w1.record (.select s))
    (.ok { ret := returnSwitch returnMode w2
           effect := { store := store, select := f, shouldUpdate := shouldUpdate } }, w2)

/-- The effect of `useEffect(..., [])`, run once after the first render:
`setState()` and then `store.subscribe(setState)`, whose result is the
cleanup. -/
def mountEffect (c : Closure) (w : World) : Except String (Option Nat) × World :=
  match setState c w with
  | (.error e, w1) => (.error e, w1)
  | (.ok _, w1) =>
    let (cleanup, w2) := c.store.subscribe (.setState c) w1
    (.ok cleanup, w2)

/-- Running the cleanup of the effect on removal of the component: a returned
unsubscribe function is called, `undefined` is skipped. -/
def runCleanup (cleanup : Option Nat) (w : World) : World :=
  match cleanup with
  | some t => unsubscribe t w
  | none => w

/-- Calling the value `useSelect` returned with `(key, defaultValue)`. -/
def Ret.call (r : Ret) (w : World) (key : Path) (d : JSVal) : Except String JSVal :=
  match r with
  | .get => .ok (syncGetPath w key d)
  | _ => .error "TypeError: not a function"

/-- Attaching a subscriber: the first render followed by its mount effect. -/
def attach (shallowEquals : JSVal → JSVal → Bool) (ctx : Ctx) (params : Params)
    (w : World) : Except String (Rendered × Option Nat) × World :=
  match useSelect shallowEquals ctx params w with
  | (.error e, w1) => (.error e, w1)
  | (.ok r, w1) =>
    match mountEffect r.effect w1 with
    | (.error e, w2) => (.error e, w2)
    | (.ok cleanup, w2) => (.ok (r, cleanup), w2)

/-- Number of `syncState.set` calls in a log. -/
def syncSetCalls : List Event → Nat
  | [] => 0
  | .syncSet _ :: es => syncSetCalls es + 1
  | _ :: es => syncSetCalls es

/-- Number of comparator calls in a log. -/
def shouldUpdateCalls : List Event → Nat
  | [] => 0
  | .shouldUpdate _ :: es => shouldUpdateCalls es + 1
  | _ :: es => shouldUpdateCalls es

/-- The actions dispatched in a log, oldest first. -/
def dispatched : List Event → List JSVal
  | [] => []
  | .dispatch a :: es => a :: dispatched es
  | _ :: es => dispatched es

/-- The store going through a sequence of state changes, notifying its
listeners after each one. -/
def storeTransitions : List JSVal → World → World
  | [], w => w
  | s :: ss, w => storeTransitions ss (storeTransition s w).2

/-! ## useReduxState -/

/-- The updater returned by `useReduxState`, with its captured variables. -/
structure Updater where
  store : StoreHandle
  domain : JSVal

/-- Result of `useReduxState`: the pair and the effect of the inner
`useSelect`. -/
structure ReduxState where
  state : Ret
  update : Updater
  effect : Closure

/-- The action object with `type: 'DOMAIN_UPDATE'`, `domain` and `update`. -/
def domainUpdate (domain update : JSVal) : JSVal :=
  .obj (.cons "type" (.str "DOMAIN_UPDATE") (.cons "domain" domain (.cons "update" update .nil)))

/-- Array destructuring with a default: a missing or `undefined` element
gives the default. -/
def elemOr (params : List Arg) (i : Nat) (dflt : Arg) : Arg :=
  propOr (params.get? i) dflt

/-- One render of `useReduxState(...params)`.  The last argument is popped
and the match on a string value is the test `typeof domain !== 'string'`. -/
def useReduxState (shallowEquals : JSVal → JSVal → Bool) (ctx : Ctx) (params : List Arg)
    (w : World) : Except String ReduxState × World :=
  let domain := params.getLast?.getD (.val .undefined)
  let params := params.dropLast
  match domain with
  | .val (.str d) =>
    let select := elemOr params 0 (.fn fun state => opGet state (.str d) .undefined)
    let shouldUpdate := elemOr params 1 (.fn (defaultShouldUpdate shallowEquals))
    if select.typeof ≠ "function" then (.error "select parameter must be a function", w)
    else if shouldUpdate.typeof ≠ "function" then
      (.error "shouldUpdate parameter must be a function", w)
    else
      match useSelect shallowEquals ctx
          (.obj { select := some select, shouldUpdate := some shouldUpdate, returnMode := none }) w with
      | (.error e, w1) => (.error e, w1)
      | (.ok r, w1) =>
        (.ok { state := r.ret
               update := { store := useStore ctx, domain := .str d }
               effect := r.effect }, w1)
  | _ => (.error "useReduxState domain parameter required.", w)

/-- Calling the updater, `update => store.dispatch(...)`. -/
def Updater.call (u : Updater) (update : JSVal) (w : World) : Except String Unit × World :=
  u.store.dispatch (domainUpdate u.domain update) w

/-! ## Concrete inputs -/

/-- A store state with a single counter. -/
def counterState (n : Int) : JSVal := .obj (.cons "count" (.num n) .nil)

/-- A fresh world: a store in state `s` with no listener and a component that
has not rendered yet. -/
def initialWorld (s : JSVal) : World :=
  { store := { state := s, reducer := fun st _ => st, listeners := [], nextToken := 0 }
    cell := none
    log := [] }

/-- The context value under a store provider. -/
def providerCtx : Ctx := some [("store", .store)]

/-- The selector `state => state.count`. -/
def selectCount (state : JSVal) : JSVal := getProp state "count"

/-- A store state with the counter at `1` and one more property. -/
def widerState : JSVal := .obj (.cons "count" (.num 1) (.cons "extra" (.num 7) .nil))

/-- A world whose store already has a listener of another subscriber. -/
def busyWorld : World :=
  { store := { state := counterState 1, reducer := fun st _ => st,
               listeners := [(0, .other 0)], nextToken := 1 }
    cell := some (.num 1)
    log := [] }

/-- The comparator `() => true`. -/
def alwaysUpdate (_ : JSVal) : JSVal := .bool true

/-! ## Lemmas on the log and the listener -/

theorem syncSetCalls_append (xs ys : List Event) :
    syncSetCalls (xs ++ ys) = syncSetCalls xs + syncSetCalls ys := by
  induction xs with
  | nil => simp [syncSetCalls]
  | cons e es ih => cases e <;> simp [syncSetCalls, ih]; omega

theorem shouldUpdateCalls_append (xs ys : List Event) :
    shouldUpdateCalls (xs ++ ys) = shouldUpdateCalls xs + shouldUpdateCalls ys := by
  induction xs with
  | nil => simp [shouldUpdateCalls]
  | cons e es ih => cases e <;> simp [shouldUpdateCalls, ih]; omega

theorem dispatched_append (xs ys : List Event) :
    dispatched (xs ++ ys) = dispatched xs ++ dispatched ys := by
  induction xs with
  | nil => simp [dispatched]
  | cons e es ih => cases e <;> simp [dispatched, ih]

theorem getState_eq (h : StoreHandle) (w : World) :
    h.getState w = (h.current w, w.record .getState) := by
  cases h <;> rfl

theorem setState_fn (h : StoreHandle) (f g : JSVal → JSVal) (w : World) :
    setState { store := h, select := f, shouldUpdate := .fn g } w =
      (.ok (),
        if truthy (g (comparatorArg (f (h.current w)) (syncGet w))) then
          { w with
            cell := some (f (h.current w))
            log := w.log ++ [.getState, .select (h.current w),
              .shouldUpdate (comparatorArg (f (h.current w)) (syncGet w)),
              .syncSet (f (h.current w))] }
        else
          { w with
            log := w.log ++ [.getState, .select (h.current w),
              .shouldUpdate (comparatorArg (f (h.current w)) (syncGet w))] }) := by
  simp only [setState, getState_eq, World.record, syncGet, syncSet]
  split <;> simp

theorem notify_others (ls rest : List (Nat × Listener)) (w : World)
    (hl : ∀ p ∈ ls, ∃ n, p.2 = Listener.other n) :
    notify (ls ++ rest) w = notify rest w := by
  induction ls with
  | nil => rfl
  | cons p ps ih =>
    obtain ⟨t, l⟩ := p
    obtain ⟨n, hn⟩ := hl (t, l) (by simp)
    simp only at hn
    subst hn
    simp only [List.cons_append, notify]
    exact ih (fun q hq => hl q (by simp [hq]))

/-- The render of `useSelect(f)` under a store provider. -/
theorem useSelect_fn_real (eq : JSVal → JSVal → Bool) (ctx : Ctx) (f : JSVal → JSVal)
    (w : World) (hctx : useStore ctx = .real) (hcell : w.cell = none) :
    useSelect eq ctx (.fn f) w =
      (.ok { ret := .value (f w.store.state)
             effect := { store := .real, select := f,
                         shouldUpdate := .fn (defaultShouldUpdate eq) } },
        { w with cell := some (f w.store.state)
                 log := w.log ++ [.getState, .select w.store.state] }) := by
  simp [useSelect, hctx, getState_eq, StoreHandle.current, World.record, useSyncState,
    hcell, returnSwitch, syncGet]

/-- Attaching `useSelect(f)` under a store provider: the cell holds the
selection of the current state and `setState` is the last listener. -/
theorem attach_fn_real (eq : JSVal → JSVal → Bool) (ctx : Ctx) (f : JSVal → JSVal)
    (w : World) (hctx : useStore ctx = .real) (hcell : w.cell = none) :
    ∃ r w1, attach eq ctx (.fn f) w = (.ok (r, some w.store.nextToken), w1) ∧
      r.effect = { store := .real, select := f, shouldUpdate := .fn (defaultShouldUpdate eq) } ∧
      w1.cell = some (f w.store.state) ∧
      w1.store.state = w.store.state ∧
      w1.store.listeners = w.store.listeners ++ [(w.store.nextToken, .setState r.effect)] := by
  simp only [attach, useSelect_fn_real eq ctx f w hctx hcell, mountEffect, setState_fn]
  by_cases hc : truthy (defaultShouldUpdate eq
      (comparatorArg (f w.store.state) (f w.store.state))) = true <;>
    simp [StoreHandle.subscribe, StoreHandle.current, syncGet, hc] <;>
    exact ⟨_, _, ⟨rfl, rfl⟩, rfl, rfl, rfl, rfl⟩

theorem defaultShouldUpdate_arg (eq : JSVal → JSVal → Bool) (newState prevState : JSVal) :
    defaultShouldUpdate eq (comparatorArg newState prevState) = .bool (!eq prevState newState) := by
  simp [defaultShouldUpdate, comparatorArg, getProp, JSFields.lookup]

/-- A state change seen by a store whose only `setState` listener is the last
one subscribed. -/
theorem storeTransition_last (s : JSVal) (w : World) (ls : List (Nat × Listener)) (t : Nat)
    (h : StoreHandle) (f g : JSVal → JSVal)
    (hls : w.store.listeners = ls ++ [(t, .setState { store := h, select := f, shouldUpdate := .fn g })])
    (hl : ∀ p ∈ ls, ∃ n, p.2 = Listener.other n) :
    storeTransition s w =
      setState { store := h, select := f, shouldUpdate := .fn g }
        { w with store := { w.store with state := s } } := by
  simp only [storeTransition, hls]
  rw [notify_others ls _ _ hl]
  simp only [notify, setState_fn]

/-- Claim C1: attached with the default comparator in state `s1`, when the
store moves to `s2` with `f s1` not shallow-equal to `f s2` and notifies its
listeners once, the listener makes exactly one `syncState.set` call and the
recorded value becomes `f s2`.  The component is fresh (`hcell`) and the
listeners already in the store are those of other subscribers (`hl`). -/
theorem useSelect_update_when_not_shallow_equal (eq : JSVal → JSVal → Bool) (ctx : Ctx)
    (f : JSVal → JSVal) (s1 s2 : JSVal) (w : World)
    (hctx : useStore ctx = .real) (hstate : w.store.state = s1) (hcell : w.cell = none)
    (hl : ∀ p ∈ w.store.listeners, ∃ n, p.2 = Listener.other n)
    (hne : eq (f s1) (f s2) = false) :
    ∃ r cleanup w1 w2,
      attach eq ctx (.fn f) w = (.ok (r, cleanup), w1) ∧
      w1.cell = some (f s1) ∧
      storeTransition s2 w1 = (.ok (), w2) ∧
      w2.log = w1.log ++ [.getState, .select s2,
        .shouldUpdate (comparatorArg (f s2) (f s1)), .syncSet (f s2)] ∧
      syncSetCalls w2.log = syncSetCalls w1.log + 1 ∧
      w2.cell = some (f s2) := by
  obtain ⟨r, w1, hatt, heff, hc1, hs1, hls⟩ := attach_fn_real eq ctx f w hctx hcell
  rw [heff] at hls
  have htr := storeTransition_last s2 w1 _ _ _ _ _ hls hl
  rw [setState_fn] at htr
  simp only [StoreHandle.current, syncGet, hc1, Option.getD_some, hstate,
    defaultShouldUpdate_arg, hne, truthy, Bool.not_false, if_true] at htr
  refine ⟨r, _, w1, _, hatt, by rw [hc1, hstate], htr, rfl, ?_, rfl⟩
  simp [syncSetCalls_append, syncSetCalls]

/-- Claim C2: attached with the default comparator in state `s1`, when the
store moves to `s2` with `f s1` shallow-equal to `f s2` and notifies its
listeners, the listener makes no `syncState.set` call and the recorded value
stays as it was.  The component is fresh (`hcell`) and the listeners already
in the store are those of other subscribers (`hl`). -/
theorem useSelect_no_update_when_shallow_equal (eq : JSVal → JSVal → Bool) (ctx : Ctx)
    (f : JSVal → JSVal) (s1 s2 : JSVal) (w : World)
    (hctx : useStore ctx = .real) (hstate : w.store.state = s1) (hcell : w.cell = none)
    (hl : ∀ p ∈ w.store.listeners, ∃ n, p.2 = Listener.other n)
    (heq : eq (f s1) (f s2) = true) :
    ∃ r cleanup w1 w2,
      attach eq ctx (.fn f) w = (.ok (r, cleanup), w1) ∧
      storeTransition s2 w1 = (.ok (), w2) ∧
      w2.log = w1.log ++ [.getState, .select s2,
        .shouldUpdate (comparatorArg (f s2) (f s1))] ∧
      syncSetCalls w2.log = syncSetCalls w1.log ∧
      w2.cell = w1.cell := by
  obtain ⟨r, w1, hatt, heff, hc1, hs1, hls⟩ := attach_fn_real eq ctx f w hctx hcell
  rw [heff] at hls
  have htr := storeTransition_last s2 w1 _ _ _ _ _ hls hl
  rw [setState_fn] at htr
  simp only [StoreHandle.current, syncGet, hc1, Option.getD_some, hstate,
    defaultShouldUpdate_arg, heq, truthy, Bool.not_true] at htr
  refine ⟨r, _, w1, _, hatt, htr, ?_, ?_, ?_⟩
  · simp
  · simp [syncSetCalls_append, syncSetCalls]
  · simp [hc1, hstate]

/-- Claim C9: on a notification `setState` calls the comparator exactly once,
with `prevState` the value recorded before and `newState` the fresh
`select(store.getState())`; the recorded value afterwards is `newState` when
the comparator returned `true` and is untouched when it returned `false`, and
the only write follows the comparator call. -/
theorem setState_asks_comparator_once (h : StoreHandle) (f g : JSVal → JSVal) (w : World) :
    ∃ w1, setState { store := h, select := f, shouldUpdate := .fn g } w = (.ok (), w1) ∧
      shouldUpdateCalls w1.log = shouldUpdateCalls w.log + 1 ∧
      w1.log = w.log ++ [.getState, .select (h.current w),
          .shouldUpdate (comparatorArg (f (h.current w)) (syncGet w))] ++
        (if truthy (g (comparatorArg (f (h.current w)) (syncGet w)))
          then [.syncSet (f (h.current w))] else []) ∧
      w1.cell = (if truthy (g (comparatorArg (f (h.current w)) (syncGet w)))
          then some (f (h.current w)) else w.cell) ∧
      (g (comparatorArg (f (h.current w)) (syncGet w)) = .bool true →
        w1.cell = some (f (h.current w)) ∧ syncSetCalls w1.log = syncSetCalls w.log + 1) ∧
      (g (comparatorArg (f (h.current w)) (syncGet w)) = .bool false →
        w1.cell = w.cell ∧ syncSetCalls w1.log = syncSetCalls w.log) ∧
      w1.store.state = w.store.state := by
  rw [setState_fn]
  refine ⟨_, rfl, ?_, ?_, ?_, ?_, ?_, ?_⟩
  · split <;> simp [shouldUpdateCalls_append, shouldUpdateCalls]
  · split <;> simp
  · split <;> rfl
  · intro hg
    simp [hg, truthy, syncSetCalls_append, syncSetCalls]
  · intro hg
    simp [hg, truthy, syncSetCalls_append, syncSetCalls]
  · split <;> rfl

/-! ## useReduxState -/

theorem setState_dispatched (c : Closure) (w : World) :
    dispatched (setState c w).2.log = dispatched w.log := by
  obtain ⟨h, f, su⟩ := c
  cases su with
  | val v => simp [setState, getState_eq, World.record, dispatched_append, dispatched]
  | fn g =>
    rw [setState_fn]
    split <;> simp [dispatched_append, dispatched]

theorem notify_dispatched (ls : List (Nat × Listener)) (w : World) :
    dispatched (notify ls w).2.log = dispatched w.log := by
  induction ls generalizing w with
  | nil => rfl
  | cons p ps ih =>
    obtain ⟨t, l⟩ := p
    cases l with
    | other n => simpa [notify] using ih w
    | setState c =>
      simp only [notify]
      have hc := setState_dispatched c w
      rcases hs : setState c w with ⟨res, w1⟩
      rw [hs] at hc
      cases res with
      | error e => simpa using hc
      | ok u => simpa [hc] using ih w1

theorem dispatch_dispatched (h : StoreHandle) (action : JSVal) (w : World) :
    dispatched (h.dispatch action w).2.log = dispatched w.log ++ [action] := by
  cases h with
  | real =>
    simp [StoreHandle.dispatch, storeTransition, notify_dispatched, World.record,
      dispatched_append, dispatched]
  | noop => simp [StoreHandle.dispatch, World.record, dispatched_append, dispatched]

/-- The render of `useSelect` on an object with a selector function and a
comparator function and no `returnMode`. -/
theorem useSelect_obj_fn (eq : JSVal → JSVal → Bool) (ctx : Ctx) (f g : JSVal → JSVal)
    (w : World) :
    useSelect eq ctx
        (.obj { select := some (.fn f), shouldUpdate := some (.fn g), returnMode := none }) w =
      (.ok { ret := .value (syncGet (useSyncState (f ((useStore ctx).current w))
                (w.record .getState |>.record (.select ((useStore ctx).current w)))))
             effect := { store := useStore ctx, select := f, shouldUpdate := .fn g } },
        useSyncState (f ((useStore ctx).current w))
          (w.record .getState |>.record (.select ((useStore ctx).current w)))) := by
  simp [useSelect, propOr, getState_eq, returnSwitch]

theorem useSyncState_log (v : JSVal) (w : World) : (useSyncState v w).log = w.log := by
  unfold useSyncState
  split <;> rfl

/-- Claim C3: the updater returned by `useReduxState(select, shouldUpdate, d)`,
called with `u`, calls `store.dispatch` exactly once, with the action of
fields `type = 'DOMAIN_UPDATE'`, `domain = d` and `update = u`, and the render
itself dispatches nothing. -/
theorem useReduxState_updater_dispatches_once (eq : JSVal → JSVal → Bool) (ctx : Ctx)
    (d : String) (select shouldUpdate : JSVal → JSVal) (u : JSVal) (w : World) :
    ∃ r w1,
      useReduxState eq ctx [.fn select, .fn shouldUpdate, .val (.str d)] w = (.ok r, w1) ∧
      dispatched w1.log = dispatched w.log ∧
      ∀ w2 : World, dispatched (r.update.call u w2).2.log =
        dispatched w2.log ++
          [.obj (.cons "type" (.str "DOMAIN_UPDATE")
            (.cons "domain" (.str d) (.cons "update" u .nil)))] := by
  simp only [useReduxState, List.getLast?, List.getLast, Option.getD, List.dropLast, elemOr,
    List.get?, propOr, Arg.typeof, ne_eq, not_true_eq_false, if_false, useSelect_obj_fn]
  refine ⟨_, _, rfl, ?_, ?_⟩
  · simp [useSyncState_log, World.record, dispatched_append, dispatched]
  · intro w2
    simp [Updater.call, dispatch_dispatched, domainUpdate]

theorem getLast?_append_single (pre : List Arg) (x : Arg) :
    (pre ++ [x]).getLast? = some x := by
  simp

/-- With a last argument that is not a string the hook throws at once. -/
theorem useReduxState_bad_domain (eq : JSVal → JSVal → Bool) (ctx : Ctx) (args : List Arg)
    (w : World) (a : Arg) (ha : args.getLast?.getD (.val .undefined) = a)
    (h : a.typeof ≠ "string") :
    useReduxState eq ctx args w = (.error "useReduxState domain parameter required.", w) := by
  unfold useReduxState
  simp only [ha]
  cases a with
  | fn f => rfl
  | val v =>
    cases v with
    | str d => exact absurd rfl h
    | undefined => rfl
    | null => rfl
    | bool b => rfl
    | num n => rfl
    | arr xs => rfl
    | obj fs => rfl

/-- Claim C4: when the last argument is not a string, the empty argument list
included, `useReduxState` throws, and the world is untouched: no `getState`,
selector, `subscribe` or `dispatch` call has happened. -/
theorem useReduxState_requires_string_domain (eq : JSVal → JSVal → Bool) (ctx : Ctx)
    (args : List Arg) (w : World)
    (h : ∀ a, args.getLast? = some a → a.typeof ≠ "string") :
    useReduxState eq ctx args w = (.error "useReduxState domain parameter required.", w) := by
  cases hl : args.getLast? with
  | none =>
    exact useReduxState_bad_domain eq ctx args w (.val .undefined) (by simp [hl]) (by decide)
  | some a =>
    exact useReduxState_bad_domain eq ctx args w a (by simp [hl]) (h a hl)

theorem propOr_supplied (a dflt : Arg) (ha : a ≠ .val .undefined) : propOr (some a) dflt = a := by
  cases a with
  | fn f => rfl
  | val v =>
    cases v with
    | undefined => exact absurd rfl ha
    | null => rfl
    | bool b => rfl
    | num n => rfl
    | str s => rfl
    | arr xs => rfl
    | obj fs => rfl

/-- Claim C5: with a string domain, a selector or a comparator that is
supplied (passed, and not as `undefined`, which selects the default) and is
not a function makes `useReduxState` throw before `useSelect` is entered: the
world is untouched. -/
theorem useReduxState_rejects_non_functions (eq : JSVal → JSVal → Bool) (ctx : Ctx)
    (pre : List Arg) (d : String) (w : World)
    (h : (∃ a, pre.get? 0 = some a ∧ a ≠ .val .undefined ∧ a.typeof ≠ "function") ∨
         (∃ a, pre.get? 1 = some a ∧ a ≠ .val .undefined ∧ a.typeof ≠ "function")) :
    useReduxState eq ctx (pre ++ [.val (.str d)]) w =
        (.error "select parameter must be a function", w) ∨
      useReduxState eq ctx (pre ++ [.val (.str d)]) w =
        (.error "shouldUpdate parameter must be a function", w) := by
  simp only [useReduxState, getLast?_append_single, Option.getD_some, List.dropLast_concat,
    elemOr]
  by_cases hsel : (propOr (pre.get? 0)
      (.fn fun state => opGet state (.str d) .undefined)).typeof ≠ "function"
  · left
    rw [if_pos hsel]
  · right
    rw [if_neg hsel]
    rcases h with ⟨a, ha, hu, hf⟩ | ⟨a, ha, hu, hf⟩
    · exact absurd (by rw [ha, propOr_supplied a _ hu]; exact hf) hsel
    · rw [ha, propOr_supplied a _ hu, if_pos hf]

/-! ## Path lookup -/

theorem splitDotAux_ne_nil (cs cur : List Char) : splitDotAux cs cur ≠ [] := by
  induction cs generalizing cur with
  | nil => simp [splitDotAux]
  | cons c cs ih =>
    unfold splitDotAux
    split
    · simp
    · exact ih _

theorem opGetKeys_eq_findKeys (o : JSVal) (ks : List String) (d : JSVal) :
    opGetKeys o ks d = (findKeys o ks).getD d := by
  induction ks generalizing o with
  | nil => simp [opGetKeys, findKeys]
  | cons k ks ih =>
    cases ks with
    | nil =>
      simp only [opGetKeys, findKeys]
      split
      · rfl
      · split <;> rfl
    | cons k2 ks =>
      rw [opGetKeys, findKeys]
      split
      · rfl
      · split
        · rfl
        · exact ih _

/-- `op.get` returns the value found at the path and the default when the
path is absent. -/
theorem opGet_eq_pathFind (o : JSVal) (path : Path) (d : JSVal) :
    opGet o path d = (pathFind o path).getD d := by
  cases path with
  | keys ks => simp [opGet, pathFind, opGetKeys_eq_findKeys]
  | str s =>
    simp only [opGet, pathFind]
    split
    · rfl
    · split
      · rename_i hn
        have hne := splitDotAux_ne_nil s.toList []
        cases hsp : splitDot s with
        | nil => exact absurd hsp hne
        | cons k ks => simp [findKeys, hn]
      · exact opGetKeys_eq_findKeys _ _ _

theorem useSyncState_first (v : JSVal) (w : World) (hcell : w.cell = none) :
    useSyncState v w = { w with cell := some v } := by
  simp [useSyncState, hcell]

/-- Claim C10: called with the domain `d` alone, or with the selector passed
as `undefined`, `useReduxState` selects with the lookup of `d` as an object
path in the state, which is `undefined` when `d` is absent from the state,
and the first element of the pair at first render is that lookup in the
current store state. -/
theorem useReduxState_default_selector (eq : JSVal → JSVal → Bool) (ctx : Ctx) (d : String)
    (w : World) (hcell : w.cell = none) :
    ∃ r1 w1 r2 w2,
      useReduxState eq ctx [.val (.str d)] w = (.ok r1, w1) ∧
      useReduxState eq ctx [.val .undefined, .val (.str d)] w = (.ok r2, w2) ∧
      (∀ s, r1.effect.select s = (pathFind s (.str d)).getD .undefined) ∧
      (∀ s, r2.effect.select s = (pathFind s (.str d)).getD .undefined) ∧
      (∀ s, pathFind s (.str d) = none →
        r1.effect.select s = .undefined ∧ r2.effect.select s = .undefined) ∧
      r1.state = .value ((pathFind ((useStore ctx).current w) (.str d)).getD .undefined) ∧
      r2.state = .value ((pathFind ((useStore ctx).current w) (.str d)).getD .undefined) := by
  have hc2 : (w.record .getState |>.record (.select ((useStore ctx).current w))).cell = none := hcell
  simp only [useReduxState, List.getLast?, List.getLast, Option.getD_some, List.dropLast, elemOr,
    List.get?, propOr, Arg.typeof, ne_eq, not_true_eq_false, if_false, useSelect_obj_fn,
    useSyncState_first _ _ hc2, syncGet]
  refine ⟨_, _, _, _, rfl, rfl, ?_, ?_, ?_, ?_, ?_⟩
  · intro s; exact opGet_eq_pathFind s (.str d) .undefined
  · intro s; exact opGet_eq_pathFind s (.str d) .undefined
  · intro s hs
    simp [opGet_eq_pathFind, hs]
  · simp [opGet_eq_pathFind]
  · simp [opGet_eq_pathFind]

/-! ## Subscription and detach -/

theorem notify_all_others (ls : List (Nat × Listener)) (w : World)
    (hl : ∀ p ∈ ls, ∃ n, p.2 = Listener.other n) : notify ls w = (.ok (), w) := by
  have h := notify_others ls [] w hl
  simpa [notify] using h

theorem storeTransitions_others (ss : List JSVal) (w : World)
    (hl : ∀ p ∈ w.store.listeners, ∃ n, p.2 = Listener.other n) :
    (storeTransitions ss w).cell = w.cell ∧ (storeTransitions ss w).log = w.log := by
  induction ss generalizing w with
  | nil => exact ⟨rfl, rfl⟩
  | cons s ss ih =>
    have hn : storeTransition s w = (.ok (), { w with store := { w.store with state := s } }) := by
      simp only [storeTransition]
      exact notify_all_others _ _ hl
    simp only [storeTransitions, hn]
    exact ih _ hl

theorem filter_fresh (ls : List (Nat × Listener)) (t : Nat) (l : Listener)
    (hfresh : ∀ p ∈ ls, p.1 < t) :
    (ls ++ [(t, l)]).filter (fun p => p.1 != t) = ls := by
  rw [List.filter_append]
  have h1 : ls.filter (fun p => p.1 != t) = ls := by
    apply List.filter_eq_self.mpr
    intro p hp
    have := hfresh p hp
    simp
    omega
  simp [h1]

/-- Claim C7: over the store model with a list of listeners, a mount of
`useSelect` registers exactly one listener, its `setState`; the cleanup of the
mount effect is the unsubscribe function that this `subscribe` call returned;
once the cleanup has run the listeners are those from before the mount, no
later state change calls `setState` or writes the recorded value, and a second
run of the cleanup changes nothing. -/
theorem mount_subscribes_once_cleanup_detaches (f g : JSVal → JSVal) (w : World)
    (ss : List JSVal)
    (hfresh : ∀ p ∈ w.store.listeners, p.1 < w.store.nextToken)
    (hothers : ∀ p ∈ w.store.listeners, ∃ n, p.2 = Listener.other n) :
    ∃ cleanup w1,
      mountEffect { store := .real, select := f, shouldUpdate := .fn g } w = (.ok cleanup, w1) ∧
      w1.store.listeners = w.store.listeners ++
        [(w.store.nextToken, .setState { store := .real, select := f, shouldUpdate := .fn g })] ∧
      cleanup = (StoreHandle.real.subscribe
        (.setState { store := .real, select := f, shouldUpdate := .fn g })
        (setState { store := .real, select := f, shouldUpdate := .fn g } w).2).1 ∧
      (runCleanup cleanup w1).store.listeners = w.store.listeners ∧
      (storeTransitions ss (runCleanup cleanup w1)).cell = (runCleanup cleanup w1).cell ∧
      (storeTransitions ss (runCleanup cleanup w1)).log = (runCleanup cleanup w1).log ∧
      runCleanup cleanup (runCleanup cleanup w1) = runCleanup cleanup w1 := by
  obtain ⟨w0, hset, hstore⟩ : ∃ w0,
      setState { store := .real, select := f, shouldUpdate := .fn g } w = (.ok (), w0) ∧
      w0.store = w.store := by
    rw [setState_fn]
    exact ⟨_, rfl, by split <;> rfl⟩
  have hclean : (runCleanup (some w.store.nextToken)
      (StoreHandle.real.subscribe
        (.setState { store := .real, select := f, shouldUpdate := .fn g }) w0).2).store.listeners
        = w.store.listeners := by
    simp only [runCleanup, unsubscribe, StoreHandle.subscribe, hstore]
    exact filter_fresh _ _ _ hfresh
  have hoth : ∀ p ∈ (runCleanup (some w.store.nextToken)
      (StoreHandle.real.subscribe
        (.setState { store := .real, select := f, shouldUpdate := .fn g }) w0).2).store.listeners,
        ∃ n, p.2 = Listener.other n := by
    rw [hclean]
    exact hothers
  refine ⟨some w.store.nextToken, (StoreHandle.real.subscribe
      (.setState { store := .real, select := f, shouldUpdate := .fn g }) w0).2, ?_, ?_, ?_,
    hclean, (storeTransitions_others ss _ hoth).1, (storeTransitions_others ss _ hoth).2, ?_⟩
  · simp [mountEffect, hset, StoreHandle.subscribe, hstore]
  · simp [StoreHandle.subscribe, hstore]
  · simp [hset, StoreHandle.subscribe, hstore]
  · simp [runCleanup, unsubscribe, List.filter_filter]

/-! ## Outside a store provider -/

theorem useStore_without_store (ctx : Ctx)
    (hctx : ctx = none ∨ ∃ fs, ctx = some fs ∧
      (fs.lookup "store" = none ∨ fs.lookup "store" = some .undefined)) :
    useStore ctx = .noop := by
  rcases hctx with h | ⟨fs, h, h1 | h1⟩ <;> subst h
  · rfl
  · simp [useStore, h1]
  · simp [useStore, h1]

/-- Claim C6, as stated, fails: outside a provider `useSelect(() => 5)`
returns `5`, which is not the empty state. -/
theorem useSelect_without_provider_counterexample :
    ∃ r w1, useSelect shallowEquals none (.fn fun _ => .num 5) (initialWorld emptyObject)
        = (.ok r, w1) ∧
      r.ret = .value (.num 5) ∧ r.ret ≠ .value emptyObject := by
  refine ⟨_, _, rfl, ?_, ?_⟩ <;> decide

/-- Claim C6, amended: without a store in the context `useStore` gives the
stand-in, whose `getState` returns an empty object and whose `subscribe` and
`dispatch` leave the store and the recorded value alone; for every selector
`f`, `useSelect` then returns `f` of the empty object without throwing (the
empty object itself with the default selector), and its mount effect
registers nothing, leaves the recorded value as it was, and makes no
`syncState.set` call when that value is shallow-equal to itself. -/
theorem useSelect_without_provider (eq : JSVal → JSVal → Bool) (ctx : Ctx)
    (f : JSVal → JSVal) (w : World)
    (hctx : ctx = none ∨ ∃ fs, ctx = some fs ∧
      (fs.lookup "store" = none ∨ fs.lookup "store" = some .undefined))
    (hcell : w.cell = none) :
    useStore ctx = .noop ∧
    (∀ v : World, (StoreHandle.noop.getState v).1 = emptyObject ∧
      (StoreHandle.noop.getState v).2.store = v.store ∧
      (StoreHandle.noop.getState v).2.cell = v.cell) ∧
    (∀ (l : Listener) (v : World), (StoreHandle.noop.subscribe l v).1 = none ∧
      (StoreHandle.noop.subscribe l v).2.store = v.store ∧
      (StoreHandle.noop.subscribe l v).2.cell = v.cell) ∧
    (∀ (a : JSVal) (v : World), (StoreHandle.noop.dispatch a v).1 = .ok () ∧
      (StoreHandle.noop.dispatch a v).2.store = v.store ∧
      (StoreHandle.noop.dispatch a v).2.cell = v.cell) ∧
    (∃ r w1 w2, useSelect eq ctx (.fn f) w = (.ok r, w1) ∧
      r.ret = .value (f emptyObject) ∧
      w1.cell = some (f emptyObject) ∧
      mountEffect r.effect w1 = (.ok none, w2) ∧
      w2.cell = w1.cell ∧
      w2.store = w.store ∧
      (eq (f emptyObject) (f emptyObject) = true →
        syncSetCalls w2.log = syncSetCalls w1.log)) ∧
    (∃ r w1, useSelect eq ctx (.other .undefined) w = (.ok r, w1) ∧
      r.ret = .value emptyObject) := by
  have hs := useStore_without_store ctx hctx
  have hrender : useSelect eq ctx (.fn f) w =
      (.ok { ret := .value (f emptyObject)
             effect := { store := .noop, select := f,
                         shouldUpdate := .fn (defaultShouldUpdate eq) } },
        { w with cell := some (f emptyObject)
                 log := w.log ++ [.getState, .select emptyObject] }) := by
    simp [useSelect, hs, getState_eq, StoreHandle.current, World.record, useSyncState,
      hcell, returnSwitch, syncGet]
  refine ⟨hs, fun v => ⟨rfl, rfl, rfl⟩, fun l v => ⟨rfl, rfl, rfl⟩,
    fun a v => ⟨rfl, rfl, rfl⟩, ?_, ?_⟩
  · have hm : ∀ W : World, W.cell = some (f emptyObject) →
        ∃ w2, mountEffect { store := .noop, select := f,
                            shouldUpdate := .fn (defaultShouldUpdate eq) } W = (.ok none, w2) ∧
          w2.cell = W.cell ∧ w2.store = W.store ∧
          (eq (f emptyObject) (f emptyObject) = true →
            syncSetCalls w2.log = syncSetCalls W.log) := by
      intro W hW
      simp only [mountEffect, setState_fn, StoreHandle.current, syncGet, hW, Option.getD_some,
        defaultShouldUpdate_arg, StoreHandle.subscribe, World.record, truthy]
      by_cases he : eq (f emptyObject) (f emptyObject) = true
      · simp only [he, Bool.not_true]
        refine ⟨_, rfl, ?_, rfl, ?_⟩
        · simp [hW]
        · intro _
          simp [syncSetCalls_append, syncSetCalls]
      · have he2 : eq (f emptyObject) (f emptyObject) = false := by simpa using he
        simp only [he2, Bool.not_false, if_true]
        exact ⟨_, rfl, by simp [hW], rfl, fun h => by simp at h⟩
    obtain ⟨w2, h1, h2, h3, h4⟩ := hm { w with cell := some (f emptyObject)
                                               log := w.log ++ [.getState, .select emptyObject] } rfl
    exact ⟨_, _, w2, hrender, rfl, rfl, h1, h2, h3, h4⟩
  · simp only [useSelect, hs, getState_eq, StoreHandle.current, World.record, useSyncState,
      hcell, returnSwitch, syncGet, Option.getD_some]
    exact ⟨_, _, rfl, rfl⟩

/-! ## The getter of returnMode 'get' -/

/-- Claim C8: for a params object with `returnMode = 'get'` (its selector a
function or absent) `useSelect` returns `syncState.get`, and that getter,
called with a path `k` and a default `v`, gives the value found at `k` in the
currently recorded state, and `v` when nothing is found there. -/
theorem useSelect_get_mode_path_getter (eq : JSVal → JSVal → Bool) (ctx : Ctx)
    (select : Option (JSVal → JSVal)) (shouldUpdate : Option Arg) (w : World) :
    ∃ r w1,
      useSelect eq ctx (.obj { select := select.map Arg.fn, shouldUpdate := shouldUpdate,
                               returnMode := some (.val (.str "get")) }) w = (.ok r, w1) ∧
      r.ret = .get ∧
      ∀ (w2 : World) (k : Path) (v : JSVal),
        r.ret.call w2 k v = .ok ((pathFind (syncGet w2) k).getD v) ∧
        (pathFind (syncGet w2) k = none → r.ret.call w2 k v = .ok v) := by
  have hcall : ∀ (w2 : World) (k : Path) (v : JSVal),
      Ret.get.call w2 k v = .ok ((pathFind (syncGet w2) k).getD v) ∧
      (pathFind (syncGet w2) k = none → Ret.get.call w2 k v = .ok v) := by
    intro w2 k v
    refine ⟨?_, fun h => ?_⟩
    · simp only [Ret.call, syncGetPath, opGet_eq_pathFind]
    · simp only [Ret.call, syncGetPath, opGet_eq_pathFind, h, Option.getD_none]
  cases select with
  | none => exact ⟨_, _, rfl, rfl, hcall⟩
  | some f => exact ⟨_, _, rfl, rfl, hcall⟩

/-! ## Concrete runs -/

theorem useSelect_update_when_not_shallow_equal_witness :
    shallowEquals (selectCount (counterState 1)) (selectCount (counterState 2)) = false ∧
    ∃ r cleanup w1 w2,
      attach shallowEquals providerCtx (.fn selectCount) (initialWorld (counterState 1))
        = (.ok (r, cleanup), w1) ∧
      w1.cell = some (selectCount (counterState 1)) ∧
      storeTransition (counterState 2) w1 = (.ok (), w2) ∧
      w2.log = w1.log ++ [.getState, .select (counterState 2),
        .shouldUpdate (comparatorArg (selectCount (counterState 2))
          (selectCount (counterState 1))),
        .syncSet (selectCount (counterState 2))] ∧
      syncSetCalls w2.log = syncSetCalls w1.log + 1 ∧
      w2.cell = some (selectCount (counterState 2)) :=
  ⟨by decide,
    useSelect_update_when_not_shallow_equal shallowEquals providerCtx selectCount
      (counterState 1) (counterState 2) (initialWorld (counterState 1))
      rfl rfl rfl (by simp [initialWorld]) (by decide)⟩

theorem useSelect_no_update_when_shallow_equal_witness :
    shallowEquals (selectCount (counterState 1)) (selectCount widerState) = true ∧
    ∃ r cleanup w1 w2,
      attach shallowEquals providerCtx (.fn selectCount) (initialWorld (counterState 1))
        = (.ok (r, cleanup), w1) ∧
      storeTransition widerState w1 = (.ok (), w2) ∧
      w2.log = w1.log ++ [.getState, .select widerState,
        .shouldUpdate (comparatorArg (selectCount widerState)
          (selectCount (counterState 1)))] ∧
      syncSetCalls w2.log = syncSetCalls w1.log ∧
      w2.cell = w1.cell :=
  ⟨by decide,
    useSelect_no_update_when_shallow_equal shallowEquals providerCtx selectCount
      (counterState 1) widerState (initialWorld (counterState 1))
      rfl rfl rfl (by simp [initialWorld]) (by decide)⟩

theorem useReduxState_updater_dispatches_once_witness :
    ∃ r w1,
      useReduxState shallowEquals providerCtx
          [.fn selectCount, .fn alwaysUpdate, .val (.str "MyDomain")]
          (initialWorld (counterState 1)) = (.ok r, w1) ∧
      dispatched w1.log = dispatched (initialWorld (counterState 1)).log ∧
      ∀ w2 : World,
        dispatched (r.update.call (.obj (.cons "x" (.num 1) .nil)) w2).2.log =
          dispatched w2.log ++
            [.obj (.cons "type" (.str "DOMAIN_UPDATE")
              (.cons "domain" (.str "MyDomain")
                (.cons "update" (.obj (.cons "x" (.num 1) .nil)) .nil)))] :=
  useReduxState_updater_dispatches_once shallowEquals providerCtx "MyDomain" selectCount
    alwaysUpdate (.obj (.cons "x" (.num 1) .nil)) (initialWorld (counterState 1))

theorem useReduxState_requires_string_domain_witness :
    useReduxState shallowEquals providerCtx [] (initialWorld (counterState 1)) =
        (.error "useReduxState domain parameter required.", initialWorld (counterState 1)) ∧
    useReduxState shallowEquals providerCtx [.fn selectCount] (initialWorld (counterState 1)) =
        (.error "useReduxState domain parameter required.", initialWorld (counterState 1)) :=
  ⟨useReduxState_requires_string_domain shallowEquals providerCtx []
      (initialWorld (counterState 1)) (by simp),
    useReduxState_requires_string_domain shallowEquals providerCtx [.fn selectCount]
      (initialWorld (counterState 1))
      (by
        intro a ha
        simp only [List.getLast?_singleton, Option.some.injEq] at ha
        subst ha
        decide)⟩

theorem useReduxState_rejects_non_functions_witness :
    useReduxState shallowEquals providerCtx ([.val (.num 5)] ++ [.val (.str "MyDomain")])
        (initialWorld (counterState 1)) =
        (.error "select parameter must be a function", initialWorld (counterState 1)) ∨
      useReduxState shallowEquals providerCtx ([.val (.num 5)] ++ [.val (.str "MyDomain")])
        (initialWorld (counterState 1)) =
        (.error "shouldUpdate parameter must be a function", initialWorld (counterState 1)) :=
  useReduxState_rejects_non_functions shallowEquals providerCtx [.val (.num 5)] "MyDomain"
    (initialWorld (counterState 1))
    (Or.inl ⟨.val (.num 5), rfl, by simp, by decide⟩)

theorem useSelect_without_provider_witness :
    useStore none = .noop ∧
    ∃ r w1 w2, useSelect shallowEquals none (.fn selectCount) (initialWorld emptyObject)
          = (.ok r, w1) ∧
      r.ret = .value (selectCount emptyObject) ∧
      w1.cell = some (selectCount emptyObject) ∧
      mountEffect r.effect w1 = (.ok none, w2) ∧
      w2.cell = w1.cell ∧
      w2.store = (initialWorld emptyObject).store ∧
      (shallowEquals (selectCount emptyObject) (selectCount emptyObject) = true →
        syncSetCalls w2.log = syncSetCalls w1.log) :=
  ⟨(useSelect_without_provider shallowEquals none selectCount (initialWorld emptyObject)
      (Or.inl rfl) rfl).1,
   (useSelect_without_provider shallowEquals none selectCount (initialWorld emptyObject)
      (Or.inl rfl) rfl).2.2.2.2.1⟩

theorem mount_subscribes_once_cleanup_detaches_witness :
    ∃ cleanup w1,
      mountEffect { store := .real, select := selectCount, shouldUpdate := .fn alwaysUpdate }
        busyWorld = (.ok cleanup, w1) ∧
      w1.store.listeners = busyWorld.store.listeners ++
        [(busyWorld.store.nextToken,
          .setState { store := .real, select := selectCount, shouldUpdate := .fn alwaysUpdate })] ∧
      cleanup = (StoreHandle.real.subscribe
        (.setState { store := .real, select := selectCount, shouldUpdate := .fn alwaysUpdate })
        (setState { store := .real, select := selectCount, shouldUpdate := .fn alwaysUpdate }
          busyWorld).2).1 ∧
      (runCleanup cleanup w1).store.listeners = busyWorld.store.listeners ∧
      (storeTransitions [counterState 2, counterState 3] (runCleanup cleanup w1)).cell
        = (runCleanup cleanup w1).cell ∧
      (storeTransitions [counterState 2, counterState 3] (runCleanup cleanup w1)).log
        = (runCleanup cleanup w1).log ∧
      runCleanup cleanup (runCleanup cleanup w1) = runCleanup cleanup w1 :=
  mount_subscribes_once_cleanup_detaches selectCount alwaysUpdate busyWorld
    [counterState 2, counterState 3]
    (by simp [busyWorld]) (by simp [busyWorld])

theorem useSelect_get_mode_path_getter_witness :
    ∃ r w1,
      useSelect shallowEquals providerCtx
          (.obj { select := (some selectCount).map Arg.fn, shouldUpdate := none,
                  returnMode := some (.val (.str "get")) })
          (initialWorld (counterState 1)) = (.ok r, w1) ∧
      r.ret = .get ∧
      ∀ (w2 : World) (k : Path) (v : JSVal),
        r.ret.call w2 k v = .ok ((pathFind (syncGet w2) k).getD v) ∧
        (pathFind (syncGet w2) k = none → r.ret.call w2 k v = .ok v) :=
  useSelect_get_mode_path_getter shallowEquals providerCtx (some selectCount) none
    (initialWorld (counterState 1))

theorem setState_asks_comparator_once_witness :
    ∃ w1, setState { store := .real, select := selectCount, shouldUpdate := .fn alwaysUpdate }
          busyWorld = (.ok (), w1) ∧
      shouldUpdateCalls w1.log = shouldUpdateCalls busyWorld.log + 1 ∧
      w1.log = busyWorld.log ++ [.getState, .select (StoreHandle.real.current busyWorld),
          .shouldUpdate (comparatorArg (selectCount (StoreHandle.real.current busyWorld))
            (syncGet busyWorld))] ++
        (if truthy (alwaysUpdate (comparatorArg
            (selectCount (StoreHandle.real.current busyWorld)) (syncGet busyWorld)))
          then [.syncSet (selectCount (StoreHandle.real.current busyWorld))] else []) ∧
      w1.cell = (if truthy (alwaysUpdate (comparatorArg
            (selectCount (StoreHandle.real.current busyWorld)) (syncGet busyWorld)))
          then some (selectCount (StoreHandle.real.current busyWorld)) else busyWorld.cell) ∧
      (alwaysUpdate (comparatorArg (selectCount (StoreHandle.real.current busyWorld))
          (syncGet busyWorld)) = .bool true →
        w1.cell = some (selectCount (StoreHandle.real.current busyWorld)) ∧
          syncSetCalls w1.log = syncSetCalls busyWorld.log + 1) ∧
      (alwaysUpdate (comparatorArg (selectCount (StoreHandle.real.current busyWorld))
          (syncGet busyWorld)) = .bool false →
        w1.cell = busyWorld.cell ∧ syncSetCalls w1.log = syncSetCalls busyWorld.log) ∧
      w1.store.state = busyWorld.store.state :=
  setState_asks_comparator_once .real selectCount alwaysUpdate busyWorld

theorem useReduxState_default_selector_witness :
    ∃ r1 w1 r2 w2,
      useReduxState shallowEquals providerCtx [.val (.str "count")]
        (initialWorld (counterState 1)) = (.ok r1, w1) ∧
      useReduxState shallowEquals providerCtx [.val .undefined, .val (.str "count")]
        (initialWorld (counterState 1)) = (.ok r2, w2) ∧
      (∀ s, r1.effect.select s = (pathFind s (.str "count")).getD .undefined) ∧
      (∀ s, r2.effect.select s = (pathFind s (.str "count")).getD .undefined) ∧
      (∀ s, pathFind s (.str "count") = none →
        r1.effect.select s = .undefined ∧ r2.effect.select s = .undefined) ∧
      r1.state = .value ((pathFind ((useStore providerCtx).current
        (initialWorld (counterState 1))) (.str "count")).getD .undefined) ∧
      r2.state = .value ((pathFind ((useStore providerCtx).current
        (initialWorld (counterState 1))) (.str "count")).getD .undefined) :=
  useReduxState_default_selector shallowEquals providerCtx "count"
    (initialWorld (counterState 1)) rfl

/-- The lookup of `count` in the counter state finds the counter, and the
lookup of a path that is not there finds nothing. -/
theorem pathFind_examples :
    pathFind (counterState 1) (.str "count") = some (.num 1) ∧
    pathFind (counterState 1) (.str "missing.deep") = none ∧
    opGet (counterState 1) (.str "missing.deep") (.num 0) = .num 0 := by
  decide

end UseSelect
